import Mathlib

/-!
Shallow embedding of the espfun backend's points ledger and signature relay
core (TypeScript sources: services/pointsService.ts, routes/admin.ts,
services/buyTokensService.ts, services/sellTokensService.ts (which also holds
the PlayerService with deductSkillPoints), the PackService, and the auth login
route).  Databases are modelled as in-memory lists; Prisma primitives
(findUnique, update, create, $transaction, $queryRaw max query) become the
corresponding pure list operations.  JavaScript integer values are Int (point
balances, which the code can drive negative) or Nat (nonces).
-/

/-- The pointType column: 'TOURNAMENT' | 'SKILL'. -/
inductive PointType
  | TOURNAMENT
  | SKILL
  deriving DecidableEq, Repr

/-- Transaction kind column. -/
inductive TxType
  | EARNED
  | SPENT
  | REWARD
  | TRANSFERRED
  | PACK_PURCHASE
  | PLAYER_CUT
  | PLAYER_PROMOTION
  deriving DecidableEq, Repr

/-- Lifecycle status of a signed pending transaction. -/
inductive TxStatus
  | pending
  | confirmed
  | failed
  deriving DecidableEq, Repr

/-- A row of the users table. -/
structure User where
  id : String
  walletAddress : String
  tournamentPoints : Int
  skillPoints : Int
  deriving DecidableEq, Repr

/-- A row of the transactions table. -/
structure TransactionRec where
  userId : String
  type : TxType
  amount : Int
  pointType : PointType
  description : String
  deriving DecidableEq, Repr

/-- A row of the point_history table. -/
structure PointHistory where
  userId : String
  pointType : PointType
  change : Int
  previousBalance : Int
  newBalance : Int
  reason : String
  deriving DecidableEq, Repr

/-- A row of the buy_tokens_transactions table. -/
structure BuyTx where
  id : String
  userId : String
  nonceUsed : Nat
  signature : String
  status : TxStatus
  txHash : Option String
  confirmedAt : Option Nat
  deriving DecidableEq, Repr

/-- A row of the sell_tokens_transactions table. -/
structure SellTx where
  id : String
  userAddress : String
  nonce : Nat
  signature : String
  status : TxStatus
  txHash : Option String
  deriving DecidableEq, Repr

/-- The relational store: one list per table, rows in creation order. -/
structure Db where
  users : List User
  transactions : List TransactionRec
  pointHistory : List PointHistory
  buyTxs : List BuyTx
  sellTxs : List SellTx
  deriving DecidableEq, Repr

/-- The .toLowerCase() normalization applied to wallet addresses. -/
def toLowerStr (s : String) : String := String.mk (s.data.map Char.toLower)

/-- Read one currency field of a user (the fieldName dispatch in the code). -/
def getPoints (u : User) (pt : PointType) : Int :=
  match pt with
  | .TOURNAMENT => u.tournamentPoints
  | .SKILL => u.skillPoints

/-- Write one currency field of a user. -/
def setPoints (u : User) (pt : PointType) (v : Int) : User :=
  match pt with
  | .TOURNAMENT => { u with tournamentPoints := v }
  | .SKILL => { u with skillPoints := v }

/-- prisma.user.update where id: rewrite the matching row. -/
def updateUserById (users : List User) (uid : String) (f : User → User) : List User :=
  users.map (fun u => if u.id = uid then f u else u)

/-- prisma.user.update where walletAddress: rewrite the matching row. -/
def updateUserByWallet (users : List User) (addr : String) (f : User → User) : List User :=
  users.map (fun u => if u.walletAddress = addr then f u else u)

/-- Errors thrown by the points operations. -/
inductive PointsError
  | userNotFound
  | insufficientPoints
  | storageFailure
  deriving DecidableEq, Repr

/-- Argument record of PointsService.updatePoints. -/
structure PointUpdate where
  userId : String
  pointType : PointType
  amount : Int
  reason : String
  transactionType : TxType
  deriving DecidableEq, Repr

/-- PointsService.updatePoints (services/pointsService.ts lines 14-72).
Looks up the user, computes newBalance and change (rejecting a SPENT update
that exceeds the balance), then inside one prisma $transaction updates the
user row and appends a transactions row and a point_history row.
`historyWriteOk` models whether the pointHistory.create statement inside the
$transaction succeeds; when it fails Prisma rolls the whole transaction back,
so the returned state is the input state. -/
def updatePointsT (db : Db) (update : PointUpdate) (historyWriteOk : Bool) :
    Option PointsError × Db :=
  match db.users.find? (fun u => u.id = update.userId) with
  | none => (some .userNotFound, db)
  | some user =>
    let currentBalance := getPoints user update.pointType
    let commit : Int → Int → Option PointsError × Db := fun newBalance change =>
      if historyWriteOk then
        (none,
          { db with
            users := updateUserById db.users update.userId
              (fun u => setPoints u update.pointType newBalance)
            transactions := db.transactions ++
              [⟨update.userId, update.transactionType, update.amount,
                update.pointType, update.reason⟩]
            pointHistory := db.pointHistory ++
              [⟨update.userId, update.pointType, change, currentBalance,
                newBalance, update.reason⟩] })
      else (some .storageFailure, db)
    if update.transactionType = TxType.SPENT then
      if currentBalance < update.amount then (some .insufficientPoints, db)
      else commit (currentBalance - update.amount) (-update.amount)
    else commit (currentBalance + update.amount) update.amount

/-- PointsService.updatePoints with every storage statement succeeding. -/
def updatePoints (db : Db) (update : PointUpdate) : Option PointsError × Db :=
  updatePointsT db update true

/-- Response body of the admin adjust-points route. -/
structure AdjustResult where
  previousBalance : Int
  adjustment : Int
  newBalance : Int
  deriving DecidableEq, Repr

/-- Outcome of the admin adjust-points route. -/
inductive AdjustOutcome
  | userNotFound
  | storageFailure
  | ok (r : AdjustResult)
  deriving DecidableEq, Repr

/-- Core of POST /users/:userId/adjust-points (routes/admin.ts lines 109-171).
newBalance = max(0, currentPoints + adjustment); actualAdjustment =
newBalance - currentPoints; one $transaction updates the user row and appends
a transactions row (kind EARNED when adjustment > 0, else SPENT, with
|actualAdjustment| as amount) and a point_history row carrying the actual
adjustment.  `historyWriteOk` as in updatePointsT. -/
def adjustUserPointsT (db : Db) (userId : String) (pointType : PointType)
    (adjustment : Int) (reason : String) (historyWriteOk : Bool) :
    AdjustOutcome × Db :=
  match db.users.find? (fun u => u.id = userId) with
  | none => (.userNotFound, db)
  | some user =>
    let currentPoints := getPoints user pointType
    let newBalance := max 0 (currentPoints + adjustment)
    let actualAdjustment := newBalance - currentPoints
    if historyWriteOk then
      (.ok ⟨currentPoints, actualAdjustment, newBalance⟩,
        { db with
          users := updateUserById db.users userId
            (fun u => setPoints u pointType newBalance)
          transactions := db.transactions ++
            [⟨userId, if adjustment > 0 then TxType.EARNED else TxType.SPENT,
              |actualAdjustment|, pointType,
              "Admin adjustment: " ++ reason⟩]
          pointHistory := db.pointHistory ++
            [⟨userId, pointType, actualAdjustment, currentPoints, newBalance,
              "Admin adjustment: " ++ reason⟩] })
    else (.storageFailure, db)

/-- The admin adjust route with every storage statement succeeding. -/
def adjustUserPoints (db : Db) (userId : String) (pointType : PointType)
    (adjustment : Int) (reason : String) : AdjustOutcome × Db :=
  adjustUserPointsT db userId pointType adjustment reason true

/-- PackService.deductTournamentPoints (the pack-purchase deduction).
The source first decrements the user's tournamentPoints, THEN re-reads the
user row, and records a point_history entry whose previousBalance is the
already-decremented stored balance and whose newBalance subtracts the points
a second time.  A missing user makes the initial prisma update throw. -/
def deductTournamentPoints (db : Db) (walletAddress : String) (points : Int) :
    Option PointsError × Db :=
  match db.users.find? (fun u => u.walletAddress = toLowerStr walletAddress) with
  | none => (some .userNotFound, db)
  | some _ =>
    let db1 := { db with
      users := updateUserByWallet db.users (toLowerStr walletAddress)
        (fun u => { u with tournamentPoints := u.tournamentPoints - points }) }
    match db1.users.find? (fun u => u.walletAddress = toLowerStr walletAddress) with
    | none => (none, db1)
    | some user =>
      (none,
        { db1 with
          transactions := db1.transactions ++
            [⟨user.id, .PACK_PURCHASE, points, .TOURNAMENT,
              "Purchased " ++ toString points ++ " point pack"⟩]
          pointHistory := db1.pointHistory ++
            [⟨user.id, .TOURNAMENT, -points, user.tournamentPoints,
              user.tournamentPoints - points,
              "Purchased pack for " ++ toString points ++ " tournament points"⟩] })

/-- PlayerService.deductSkillPoints (sellTokensService.ts lines 434-477, the
player-promotion deduction).  Reads the user first, then issues THREE separate
storage statements with no surrounding $transaction: decrement the user's
skillPoints, create a transactions row, create a point_history row.
`historyWriteOk` models whether the final pointHistory.create succeeds; when
it fails, the two earlier writes are not rolled back. -/
def deductSkillPointsT (db : Db) (walletAddress : String) (points : Int)
    (historyWriteOk : Bool) : Option PointsError × Db :=
  match db.users.find? (fun u => u.walletAddress = toLowerStr walletAddress) with
  | none => (some .userNotFound, db)
  | some userBefore =>
    let previousBalance := userBefore.skillPoints
    let newBalance := previousBalance - points
    let db1 := { db with
      users := updateUserByWallet db.users (toLowerStr walletAddress)
        (fun u => { u with skillPoints := u.skillPoints - points }) }
    let db2 := { db1 with
      transactions := db1.transactions ++
        [⟨userBefore.id, .PLAYER_PROMOTION, points, .SKILL,
          "Promoted players for " ++ toString points ++ " skill points"⟩] }
    if historyWriteOk then
      (none,
        { db2 with
          pointHistory := db2.pointHistory ++
            [⟨userBefore.id, .SKILL, -points, previousBalance, newBalance,
              "Promoted players for " ++ toString points ++ " skill points"⟩] })
    else (some .storageFailure, db2)

/-- The point_history rows of one (account, currency), in creation order. -/
def historyFor (db : Db) (uid : String) (pt : PointType) : List PointHistory :=
  db.pointHistory.filter (fun h => h.userId = uid ∧ h.pointType = pt)

/-- Replay a history: starting from init, each record must describe the
current balance as its previousBalance and moves it to its newBalance;
returns none when a record does not apply to the balance reached so far. -/
def replayHistory (init : Int) : List PointHistory → Option Int
  | [] => some init
  | r :: rs => if r.previousBalance = init then replayHistory r.newBalance rs else none

/-- The stored balance of one (account, currency), none if the user row is
missing. -/
def storedBalance (db : Db) (uid : String) (pt : PointType) : Option Int :=
  (db.users.find? (fun u => u.id = uid)).map (fun u => getPoints u pt)

/-- Request record of BuyTokensService.prepareSignature. -/
structure BuyTokensRequest where
  buyer : String
  playerTokenIds : List Nat
  amounts : List String
  maxCurrencySpend : String
  deadline : Nat
  deriving DecidableEq, Repr

/-- Return record of BuyTokensService.prepareSignature. -/
structure PrepareResult where
  signature : String
  nonce : Nat
  signer : String
  txId : String
  validUntil : Nat
  deriving DecidableEq, Repr

/-- The raw query SELECT nonce_used FROM buy_tokens_transactions WHERE
user_id = uid ORDER BY nonce_used DESC LIMIT 1, with the code's default 0
when there is no row: the greatest nonce recorded for the user, or 0. -/
def maxNonceUsed (txs : List BuyTx) (uid : String) : Nat :=
  ((txs.filter (fun t => t.userId = uid)).map (fun t => t.nonceUsed)).foldl max 0

/-- The nonce-selection block of BuyTokensService.prepareSignature (lines
54-79).  onChainNonce none models getOnChainNonce throwing; the catch block
then falls back to the database-only nonce. -/
def chooseNextNonce (db : Db) (uid : String) (onChainNonce : Option Nat) : Nat :=
  let lastDbNonce := maxNonceUsed db.buyTxs uid
  match onChainNonce with
  | some onChain => max onChain (lastDbNonce + 1)
  | none => lastDbNonce + 1

/-- The INSERT INTO buy_tokens_transactions of prepareSignature (lines
95-110): a fresh row with the chosen nonce and status pending. -/
def insertBuyTx (db : Db) (uid : String) (nonce : Nat) (rowId sig : String) : Db :=
  { db with buyTxs := db.buyTxs ++ [⟨rowId, uid, nonce, sig, .pending, none, none⟩] }

/-- The user id prepareSignature resolves for a buyer address: the existing
row's id, or the id assigned to the implicitly created user. -/
def resolvedUserId (db : Db) (buyer newUserId : String) : String :=
  match db.users.find? (fun u => u.walletAddress = buyer) with
  | some u => u.id
  | none => newUserId

/-- BuyTokensService.prepareSignature (buyTokensService.ts lines 32-121).
Finds or implicitly creates the user (tournamentPoints 100, skillPoints 50),
chooses the nonce from the on-chain read and the recorded transactions,
signs, inserts the pending row under a first generateId() draw (insertId),
and returns a SECOND generateId() draw (returnId) as txId.  The signature
bytes and signer are opaque inputs. -/
def prepareSignature (db : Db) (request : BuyTokensRequest)
    (onChainNonce : Option Nat) (newUserId insertId returnId sig signer : String) :
    PrepareResult × Db :=
  let resolved : User × Db :=
    match db.users.find? (fun u => u.walletAddress = request.buyer) with
    | some u => (u, db)
    | none =>
      let u : User := ⟨newUserId, request.buyer, 100, 50⟩
      (u, { db with users := db.users ++ [u] })
  let user := resolved.1
  let db1 := resolved.2
  let nextNonce := chooseNextNonce db1 user.id onChainNonce
  let db2 := insertBuyTx db1 user.id nextNonce insertId sig
  let txId := returnId
  (⟨sig, nextNonce, signer, txId, request.deadline⟩, db2)

/-- BuyTokensService.confirmTransaction (lines 293-334).  findFirst with id,
userId and status pending; null when no such row, otherwise the row with that
id is updated to confirmed with the txHash and a confirmedAt timestamp, and
the updated row is returned. -/
def confirmTransaction (db : Db) (transactionId userId txHash : String)
    (now : Nat) : Option BuyTx × Db :=
  match db.buyTxs.find? (fun tx =>
      tx.id = transactionId ∧ tx.userId = userId ∧ tx.status = TxStatus.pending) with
  | none => (none, db)
  | some tx0 =>
    let upd : BuyTx → BuyTx := fun tx =>
      { tx with status := TxStatus.confirmed, txHash := some txHash,
                confirmedAt := some now }
    (some (upd tx0),
      { db with buyTxs := db.buyTxs.map (fun tx =>
          if tx.id = transactionId then upd tx else tx) })

/-- Request record of SellTokensService.prepareSellTokensSignature. -/
structure SellTokensRequest where
  playerTokenIds : List Nat
  amounts : List Int
  minCurrencyToReceive : Int
  deadline : Nat
  deriving DecidableEq, Repr

/-- Response record of SellTokensService.prepareSellTokensSignature. -/
structure SellTokensSignatureResponse where
  success : Bool
  signature : Option String
  transactionId : Option String
  error : Option String
  deriving DecidableEq, Repr

/-- SellTokensService.prepareSellTokensSignature (sellTokensService.ts lines
73-174).  After input validation it reads the nonce ONLY from the chain
(getOnChainNonce); onChainNonce none models that read throwing, which the
surrounding catch turns into a success=false error response with no fallback.
On success it inserts a pending sell_tokens_transactions row with the
on-chain nonce. -/
def prepareSellTokensSignature (db : Db) (userAddress : String)
    (request : SellTokensRequest) (onChainNonce : Option Nat) (now : Nat)
    (transactionId sig : String) : SellTokensSignatureResponse × Db :=
  if request.playerTokenIds.isEmpty then
    (⟨false, none, none, some "playerTokenIds is required and cannot be empty"⟩, db)
  else if request.amounts.isEmpty then
    (⟨false, none, none, some "amounts is required and cannot be empty"⟩, db)
  else if request.playerTokenIds.length ≠ request.amounts.length then
    (⟨false, none, none,
      some "playerTokenIds and amounts arrays must have the same length"⟩, db)
  else if request.minCurrencyToReceive < 0 then
    (⟨false, none, none, some "minCurrencyToReceive must be non-negative"⟩, db)
  else if request.deadline ≤ now then
    (⟨false, none, none, some "deadline must be in the future"⟩, db)
  else if request.amounts.any (fun amount => amount ≤ 0) then
    (⟨false, none, none, some "All amounts must be positive"⟩, db)
  else
    match onChainNonce with
    | none => (⟨false, none, none, some "Failed to prepare signature"⟩, db)
    | some nonce =>
      (⟨true, some sig, some transactionId, none⟩,
        { db with sellTxs := db.sellTxs ++
            [⟨transactionId, userAddress, nonce, sig, .pending, none⟩] })

/-- The find-or-create block of POST /api/auth/login: an unknown (lower-cased)
wallet address gets a fresh user row with tournamentPoints 100 and
skillPoints 50. -/
def loginFindOrCreate (db : Db) (walletAddress newUserId : String) : User × Db :=
  match db.users.find? (fun u => u.walletAddress = toLowerStr walletAddress) with
  | some u => (u, db)
  | none =>
    let u : User := ⟨newUserId, toLowerStr walletAddress, 100, 50⟩
    (u, { db with users := db.users ++ [u] })

/-! ## Helper lemmas -/

/-- setPoints leaves the user id unchanged. -/
lemma setPoints_id (u : User) (pt : PointType) (v : Int) : (setPoints u pt v).id = u.id := by
  cases pt <;> rfl

/-- Reading back the currency field just written. -/
lemma getPoints_setPoints (u : User) (pt : PointType) (v : Int) :
    getPoints (setPoints u pt v) pt = v := by
  cases pt <;> rfl

/-- Finding a user by id after an id-preserving row rewrite. -/
lemma find_updateUserById (users : List User) (uid : String) (f : User → User)
    (hf : ∀ u, (f u).id = u.id) :
    (updateUserById users uid f).find? (fun u => u.id = uid)
      = (users.find? (fun u => u.id = uid)).map f := by
  induction users with
  | nil => rfl
  | cons a l ih =>
    by_cases h : a.id = uid
    · simp [updateUserById, h, hf a]
    · simpa [updateUserById, h, hf a] using ih

/-- The accumulator is below a foldl of max. -/
lemma le_foldl_max_acc (l : List Nat) (a : Nat) : a ≤ l.foldl max a := by
  induction l generalizing a with
  | nil => exact Nat.le_refl a
  | cons b l ih => exact Nat.le_trans (Nat.le_max_left a b) (ih (max a b))

/-- Every member is below a foldl of max. -/
lemma mem_le_foldl_max (l : List Nat) (a x : Nat) (hx : x ∈ l) : x ≤ l.foldl max a := by
  induction l generalizing a with
  | nil => cases hx
  | cons b l ih =>
    rcases List.mem_cons.mp hx with rfl | hx
    · exact Nat.le_trans (Nat.le_max_right a x) (le_foldl_max_acc l (max a x))
    · exact ih (max a b) hx

/-- Every nonce recorded for a user is at most maxNonceUsed. -/
lemma nonce_le_maxNonceUsed (txs : List BuyTx) (uid : String) (tx : BuyTx)
    (hmem : tx ∈ txs) (huid : tx.userId = uid) :
    tx.nonceUsed ≤ maxNonceUsed txs uid := by
  apply mem_le_foldl_max
  exact List.mem_map_of_mem _ (List.mem_filter.mpr ⟨hmem, by simp [huid]⟩)

/-! ## Claim theorems -/

/-- C1: the pack-purchase deduction (PackService.deductTournamentPoints)
violates the replay invariant: starting from a user with 100 tournament
points, deducting 30 stores balance 70 but records a point-history entry
with previousBalance 70 and newBalance 40 (the user row is re-read only
after the decrement), so replaying the history for (u1, TOURNAMENT) from the
initial balance 100 does not reproduce the stored balance 70.  Each record
still satisfies newBalance = previousBalance + change. -/
theorem packDeduction_breaks_replay :
    (let db0 : Db := ⟨[⟨"u1", "0xabc", 100, 50⟩], [], [], [], []⟩
     let db1 := (deductTournamentPoints db0 "0xabc" 30).2
     storedBalance db1 "u1" PointType.TOURNAMENT = some 70 ∧
     historyFor db1 "u1" PointType.TOURNAMENT
       = [⟨"u1", PointType.TOURNAMENT, -30, 70, 40,
           "Purchased pack for 30 tournament points"⟩] ∧
     (∀ r ∈ historyFor db1 "u1" PointType.TOURNAMENT,
        r.newBalance = r.previousBalance + r.change) ∧
     replayHistory 100 (historyFor db1 "u1" PointType.TOURNAMENT) = none ∧
     replayHistory 100 (historyFor db1 "u1" PointType.TOURNAMENT) ≠ some 70) := by
  decide

/-- C4: PointsService.updatePoints on a SPENT update of positive amount:
when the stored balance is below the amount it fails with insufficient
points and leaves the user rows, transactions and point history untouched;
otherwise it succeeds, decrements the balance by exactly the amount, and
appends a SPENT transaction record and the matching history record. -/
theorem spend_insufficient_or_decrement
    (db : Db) (pu : PointUpdate) (user : User)
    (hfind : db.users.find? (fun u => u.id = pu.userId) = some user)
    (hspent : pu.transactionType = TxType.SPENT)
    (hpos : 0 < pu.amount) :
    (getPoints user pu.pointType < pu.amount →
        updatePoints db pu = (some PointsError.insufficientPoints, db)) ∧
    (pu.amount ≤ getPoints user pu.pointType →
        (updatePoints db pu).1 = none ∧
        storedBalance (updatePoints db pu).2 pu.userId pu.pointType
          = some (getPoints user pu.pointType - pu.amount) ∧
        (updatePoints db pu).2.transactions
          = db.transactions ++
              [⟨pu.userId, TxType.SPENT, pu.amount, pu.pointType, pu.reason⟩] ∧
        (updatePoints db pu).2.pointHistory
          = db.pointHistory ++
              [⟨pu.userId, pu.pointType, -pu.amount,
                getPoints user pu.pointType,
                getPoints user pu.pointType - pu.amount, pu.reason⟩]) := by
  constructor
  · intro hlt
    simp [updatePoints, updatePointsT, hfind, hspent, hlt]
  · intro hge
    have hnlt : ¬ getPoints user pu.pointType < pu.amount := not_lt.mpr hge
    constructor
    · simp [updatePoints, updatePointsT, hfind, hspent, hnlt]
    refine ⟨?_, ?_, ?_⟩
    · simp only [updatePoints, updatePointsT, hfind, hspent, hnlt, if_true,
        if_false, ite_true, ite_false, storedBalance]
      rw [find_updateUserById db.users pu.userId _
            (fun u => setPoints_id u pu.pointType _), hfind]
      simp [getPoints_setPoints]
    · simp [updatePoints, updatePointsT, hfind, hspent, hnlt]
    · simp [updatePoints, updatePointsT, hfind, hspent, hnlt]

/-- C4 witness: a user with 0 tournament points cannot spend 1; the call
fails with insufficient points and the store is unchanged. -/
theorem spend_insufficient_or_decrement_witness :
    updatePoints ⟨[⟨"u1", "0xabc", 0, 50⟩], [], [], [], []⟩
        ⟨"u1", PointType.TOURNAMENT, 1, "r", TxType.SPENT⟩
      = (some PointsError.insufficientPoints,
         ⟨[⟨"u1", "0xabc", 0, 50⟩], [], [], [], []⟩) :=
  (spend_insufficient_or_decrement
      ⟨[⟨"u1", "0xabc", 0, 50⟩], [], [], [], []⟩
      ⟨"u1", PointType.TOURNAMENT, 1, "r", TxType.SPENT⟩
      ⟨"u1", "0xabc", 0, 50⟩ (by decide) rfl (by decide)).1 (by decide)

/-- C5: the admin adjust route sets the new balance to max(0, previous +
adjustment) for every signed adjustment (there is no rejection branch for a
too-negative delta), and the history record carries the actually applied
delta newBalance - previousBalance; when the adjustment is more negative
than the balance, the new balance is exactly 0 and the recorded delta is
0 - previousBalance. -/
theorem adjust_clamps_at_zero
    (db : Db) (userId : String) (pt : PointType) (adjustment : Int)
    (reason : String) (user : User)
    (hfind : db.users.find? (fun u => u.id = userId) = some user) :
    (adjustUserPoints db userId pt adjustment reason).1
      = AdjustOutcome.ok ⟨getPoints user pt,
          max 0 (getPoints user pt + adjustment) - getPoints user pt,
          max 0 (getPoints user pt + adjustment)⟩ ∧
    storedBalance (adjustUserPoints db userId pt adjustment reason).2 userId pt
      = some (max 0 (getPoints user pt + adjustment)) ∧
    (adjustUserPoints db userId pt adjustment reason).2.pointHistory
      = db.pointHistory ++
          [⟨userId, pt, max 0 (getPoints user pt + adjustment) - getPoints user pt,
            getPoints user pt, max 0 (getPoints user pt + adjustment),
            "Admin adjustment: " ++ reason⟩] ∧
    (adjustment < -getPoints user pt →
        max 0 (getPoints user pt + adjustment) = 0 ∧
        max 0 (getPoints user pt + adjustment) - getPoints user pt
          = 0 - getPoints user pt) := by
  refine ⟨?_, ?_, ?_, ?_⟩
  · simp [adjustUserPoints, adjustUserPointsT, hfind]
  · simp only [adjustUserPoints, adjustUserPointsT, hfind, if_true, ite_true,
      storedBalance]
    rw [find_updateUserById db.users userId _ (fun u => setPoints_id u pt _), hfind]
    simp [getPoints_setPoints]
  · simp [adjustUserPoints, adjustUserPointsT, hfind]
  · intro hneg
    have hle : getPoints user pt + adjustment ≤ 0 := by linarith
    constructor
    · exact max_eq_left hle
    · rw [max_eq_left hle]

/-- C5 witness: a user with 100 tournament points adjusted by -150 ends at
balance 0 with recorded delta -100. -/
theorem adjust_clamps_at_zero_witness :
    (adjustUserPoints ⟨[⟨"u1", "0xabc", 100, 50⟩], [], [], [], []⟩
        "u1" PointType.TOURNAMENT (-150) "r").1
      = AdjustOutcome.ok ⟨100, -100, 0⟩ :=
  by
    have h := (adjust_clamps_at_zero
      ⟨[⟨"u1", "0xabc", 100, 50⟩], [], [], [], []⟩
      "u1" PointType.TOURNAMENT (-150) "r"
      ⟨"u1", "0xabc", 100, 50⟩ (by decide)).1
    simpa using h

/-- C6 amended: the points-ledger operations that DO use a prisma
$transaction - PointsService.updatePoints and the admin adjust route -
are atomic: when the point-history write inside the transaction fails, the
whole unit rolls back and the returned store is exactly the input store. -/
theorem transactional_paths_roll_back :
    (∀ (db : Db) (pu : PointUpdate), (updatePointsT db pu false).2 = db) ∧
    (∀ (db : Db) (userId : String) (pt : PointType) (adj : Int) (reason : String),
      (adjustUserPointsT db userId pt adj reason false).2 = db) := by
  constructor
  · intro db pu
    unfold updatePointsT
    cases h : db.users.find? (fun u => u.id = pu.userId) with
    | none => rfl
    | some user =>
      by_cases hs : pu.transactionType = TxType.SPENT <;>
        simp [hs] <;> split <;> rfl
  · intro db userId pt adj reason
    unfold adjustUserPointsT
    cases h : db.users.find? (fun u => u.id = userId) with
    | none => rfl
    | some user => rfl

/-- C6 counterexample: PlayerService.deductSkillPoints (the player-promotion
deduction) is NOT atomic: with a user holding 50 skill points, deducting 30
with the point-history write failing leaves the stored balance already
decremented to 20 and a PLAYER_PROMOTION transaction recorded, while the
point-history list is empty - the balance changed but its ledger audit
record is missing, an observable partial application. -/
theorem deductSkillPoints_partial_application :
    (let db0 : Db := ⟨[⟨"u1", "0xabc", 100, 50⟩], [], [], [], []⟩
     let r := deductSkillPointsT db0 "0xabc" 30 false
     r.1 = some PointsError.storageFailure ∧
     storedBalance r.2 "u1" PointType.SKILL = some 20 ∧
     (r.2.transactions.map fun t => t.type) = [TxType.PLAYER_PROMOTION] ∧
     r.2.pointHistory = [] ∧
     r.2 ≠ db0) := by
  decide

/-- C2: when the on-chain nonce read succeeds, BuyTokensService.prepareSignature
chooses max(localNextNonce, onChainNextNonce), where localNextNonce is one
plus the greatest nonce recorded in the address's buy_tokens_transactions
(so 1 when there are none); in particular, with a recorded pending
transaction at nonce 7 and a stale on-chain report of 7, the chosen nonce
is 8. -/
theorem prepareSignature_nonce_reconciliation :
    (∀ (db : Db) (req : BuyTokensRequest) (c : Nat)
       (newUserId insertId returnId sig signer : String),
      (prepareSignature db req (some c) newUserId insertId returnId sig signer).1.nonce
        = max (maxNonceUsed db.buyTxs (resolvedUserId db req.buyer newUserId) + 1) c) ∧
    (prepareSignature
        ⟨[⟨"u1", "0xabc", 100, 50⟩], [], [],
         [⟨"bt_0", "u1", 7, "s", TxStatus.pending, none, none⟩], []⟩
        ⟨"0xabc", [1], ["1"], "10", 99⟩ (some 7)
        "nu" "bt_1" "bt_2" "sig" "sgn").1.nonce = 8 := by
  constructor
  · intro db req c newUserId insertId returnId sig signer
    unfold prepareSignature resolvedUserId chooseNextNonce
    cases h : db.users.find? (fun u => u.walletAddress = req.buyer) with
    | none => simp [h, Nat.max_comm]
    | some u => simp [h, Nat.max_comm]
  · decide

/-- C3 counterexample: a sell relay request (SellTokensService.
prepareSellTokensSignature) whose on-chain nonce read fails does NOT
succeed: the chain failure is surfaced to the caller as a success=false
error response, nothing is persisted, and no local-nonce fallback exists on
this path. -/
theorem sell_chain_failure_surfaces_error :
    (let db0 : Db := ⟨[⟨"u1", "0xabc", 100, 50⟩], [], [], [], []⟩
     let r := prepareSellTokensSignature db0 "0xabc" ⟨[1], [1], 0, 99⟩ none 0
                "sell_1" "sig"
     r.1.success = false ∧
     r.1.error = some "Failed to prepare signature" ∧
     r.2 = db0) := by
  decide

/-- C3 amended: on the BUY relay path, when the on-chain nonce read fails,
prepareSignature still succeeds in degraded mode: it chooses
localNextNonce = maxNonceUsed + 1, persists a pending transaction with that
nonce, and the chosen nonce is strictly greater than every nonce previously
recorded for that address. -/
theorem buy_chain_failure_degraded_mode :
    ∀ (db : Db) (req : BuyTokensRequest)
      (newUserId insertId returnId sig signer : String),
      (prepareSignature db req none newUserId insertId returnId sig signer).1.nonce
        = maxNonceUsed db.buyTxs (resolvedUserId db req.buyer newUserId) + 1 ∧
      (prepareSignature db req none newUserId insertId returnId sig signer).2.buyTxs
        = db.buyTxs ++
            [⟨insertId, resolvedUserId db req.buyer newUserId,
              maxNonceUsed db.buyTxs (resolvedUserId db req.buyer newUserId) + 1,
              sig, TxStatus.pending, none, none⟩] ∧
      (∀ tx ∈ db.buyTxs, tx.userId = resolvedUserId db req.buyer newUserId →
        tx.nonceUsed
          < (prepareSignature db req none newUserId insertId returnId sig signer).1.nonce) := by
  intro db req newUserId insertId returnId sig signer
  have hnonce :
      (prepareSignature db req none newUserId insertId returnId sig signer).1.nonce
        = maxNonceUsed db.buyTxs (resolvedUserId db req.buyer newUserId) + 1 := by
    unfold prepareSignature resolvedUserId chooseNextNonce
    cases h : db.users.find? (fun u => u.walletAddress = req.buyer) with
    | none => simp [h]
    | some u => simp [h]
  refine ⟨hnonce, ?_, ?_⟩
  · unfold prepareSignature resolvedUserId chooseNextNonce insertBuyTx
    cases h : db.users.find? (fun u => u.walletAddress = req.buyer) with
    | none => simp [h]
    | some u => simp [h]
  · intro tx hmem huid
    rw [hnonce]
    exact Nat.lt_succ_of_le (nonce_le_maxNonceUsed db.buyTxs _ tx hmem huid)

/-- C3 amended witness: with one recorded transaction at nonce 7 and the
chain read failing, the buy path chooses nonce 8, strictly above the
recorded nonce 7. -/
theorem buy_chain_failure_degraded_mode_witness :
    (prepareSignature
        ⟨[⟨"u1", "0xabc", 100, 50⟩], [], [],
         [⟨"bt_0", "u1", 7, "s", TxStatus.pending, none, none⟩], []⟩
        ⟨"0xabc", [1], ["1"], "10", 99⟩ none
        "nu" "bt_1" "bt_2" "sig" "sgn").1.nonce = 8 ∧
    (7 : Nat)
      < (prepareSignature
          ⟨[⟨"u1", "0xabc", 100, 50⟩], [], [],
           [⟨"bt_0", "u1", 7, "s", TxStatus.pending, none, none⟩], []⟩
          ⟨"0xabc", [1], ["1"], "10", 99⟩ none
          "nu" "bt_1" "bt_2" "sig" "sgn").1.nonce := by
  have h := buy_chain_failure_degraded_mode
    ⟨[⟨"u1", "0xabc", 100, 50⟩], [], [],
     [⟨"bt_0", "u1", 7, "s", TxStatus.pending, none, none⟩], []⟩
    ⟨"0xabc", [1], ["1"], "10", 99⟩ "nu" "bt_1" "bt_2" "sig" "sgn"
  constructor
  · rw [h.1]; decide
  · exact h.2.2 ⟨"bt_0", "u1", 7, "s", TxStatus.pending, none, none⟩
      (by decide) (by decide)

/-- C7: BuyTokensService.confirmTransaction transitions a record out of
pending at most once: when no record matches the given id, calling owner
and pending status (missing id, foreign owner, or already-terminal status),
the call returns null and the store - including every stored status, txHash
and confirmedAt - is unchanged; and after any successful confirmation, a
second confirmation of the same id returns null and changes nothing, so the
first call's result stays intact. -/
theorem confirmTransaction_at_most_once :
    ∀ (db : Db) (i u h : String) (now : Nat) (u2 h2 : String) (now2 : Nat),
      (db.buyTxs.find? (fun tx =>
          tx.id = i ∧ tx.userId = u ∧ tx.status = TxStatus.pending) = none →
        confirmTransaction db i u h now = (none, db)) ∧
      (∀ (tx1 : BuyTx) (db1 : Db),
        confirmTransaction db i u h now = (some tx1, db1) →
        confirmTransaction db1 i u2 h2 now2 = (none, db1)) := by
  intro db i u h now u2 h2 now2
  constructor
  · intro hn
    unfold confirmTransaction
    rw [hn]
  · intro tx1 db1 heq
    unfold confirmTransaction at heq
    cases hf : db.buyTxs.find? (fun tx =>
        tx.id = i ∧ tx.userId = u ∧ tx.status = TxStatus.pending) with
    | none => rw [hf] at heq; cases heq
    | some tx0 =>
      rw [hf] at heq
      injection heq with heqa heqb
      subst heqb
      have hnone : (db.buyTxs.map (fun tx =>
          if tx.id = i then
            { tx with status := TxStatus.confirmed, txHash := some h,
                      confirmedAt := some now }
          else tx)).find? (fun tx =>
            tx.id = i ∧ tx.userId = u2 ∧ tx.status = TxStatus.pending) = none := by
        apply List.find?_eq_none.mpr
        intro x hx
        obtain ⟨y, hy, rfl⟩ := List.mem_map.mp hx
        by_cases hid : y.id = i
        · simp [hid]
        · simp [hid]
      unfold confirmTransaction
      simp only [hnone]

/-- C7 witness: confirming an already-confirmed transaction returns null and
leaves the store unchanged. -/
theorem confirmTransaction_at_most_once_witness :
    confirmTransaction
        ⟨[⟨"u1", "0xabc", 100, 50⟩], [], [],
         [⟨"bt_1", "u1", 1, "s", TxStatus.confirmed, some "0xh", some 5⟩], []⟩
        "bt_1" "u1" "0xh2" 6
      = (none,
         ⟨[⟨"u1", "0xabc", 100, 50⟩], [], [],
          [⟨"bt_1", "u1", 1, "s", TxStatus.confirmed, some "0xh", some 5⟩], []⟩) :=
  (confirmTransaction_at_most_once
      ⟨[⟨"u1", "0xabc", 100, 50⟩], [], [],
       [⟨"bt_1", "u1", 1, "s", TxStatus.pending, none, none⟩], []⟩
      "bt_1" "u1" "0xh" 5 "u1" "0xh2" 6).2
    ⟨"bt_1", "u1", 1, "s", TxStatus.confirmed, some "0xh", some 5⟩
    ⟨[⟨"u1", "0xabc", 100, 50⟩], [], [],
     [⟨"bt_1", "u1", 1, "s", TxStatus.confirmed, some "0xh", some 5⟩], []⟩
    (by decide)

/-- C8: the read-nonces/choose/persist sequence of prepareSignature is NOT
serialized per address: two overlapping calls for the same address that
both run the nonce-selection block (chooseNextNonce) against the store
before either has run the INSERT (insertBuyTx) choose the same nonce, and
after both persist, the store holds two pending transactions carrying the
same nonce 1 - the interleaving the claim says is impossible. -/
theorem concurrent_prepare_duplicate_nonce :
    (let db0 : Db := ⟨[⟨"u1", "0xabc", 100, 50⟩], [], [], [], []⟩
     let nA := chooseNextNonce db0 "u1" (some 1)
     let nB := chooseNextNonce db0 "u1" (some 1)
     let dbB := insertBuyTx (insertBuyTx db0 "u1" nA "bt_a" "sa") "u1" nB "bt_b" "sb"
     nA = nB ∧ nA = 1 ∧
     (dbB.buyTxs.map fun t => t.nonceUsed) = [1, 1]) := by
  decide

/-- C9: the txId returned by prepareSignature is a SECOND generateId() draw,
different from the id the INSERT used, so the returned txId does not equal
the id of the persisted pending transaction and a subsequent
confirmTransaction on the returned txId finds nothing and changes
nothing. -/
theorem prepareSignature_returns_unpersisted_txId :
    (let db0 : Db := ⟨[⟨"u1", "0xabc", 100, 50⟩], [], [], [], []⟩
     let r := prepareSignature db0 ⟨"0xabc", [1], ["1"], "10", 99⟩ (some 1)
                "nu" "bt_1" "bt_2" "sig" "sgn"
     r.1.txId = "bt_2" ∧
     (r.2.buyTxs.map fun t => t.id) = ["bt_1"] ∧
     r.1.txId ∉ r.2.buyTxs.map (fun t => t.id) ∧
     confirmTransaction r.2 r.1.txId "u1" "0xh" 5 = (none, r.2)) := by
  decide

/-- C10: an account implicitly created at the public interface - by a first
login for an unknown (lower-cased) wallet address, or by a first
prepareSignature call for an unknown buyer address - is created with
tournamentPoints = 100 and skillPoints = 50, not with zero balances. -/
theorem implicit_creation_starting_balances :
    ∀ (db : Db) (walletAddress newUserId : String) (req : BuyTokensRequest)
      (onChain : Option Nat) (nuid insertId returnId sig signer : String),
      (db.users.find? (fun u => u.walletAddress = toLowerStr walletAddress) = none →
        (loginFindOrCreate db walletAddress newUserId).1
            = ⟨newUserId, toLowerStr walletAddress, 100, 50⟩ ∧
        (loginFindOrCreate db walletAddress newUserId).2.users
            = db.users ++ [⟨newUserId, toLowerStr walletAddress, 100, 50⟩]) ∧
      (db.users.find? (fun u => u.walletAddress = req.buyer) = none →
        (prepareSignature db req onChain nuid insertId returnId sig signer).2.users
            = db.users ++ [⟨nuid, req.buyer, 100, 50⟩]) := by
  intro db walletAddress newUserId req onChain nuid insertId returnId sig signer
  constructor
  · intro hn
    unfold loginFindOrCreate
    rw [hn]
    exact ⟨rfl, rfl⟩
  · intro hn
    unfold prepareSignature insertBuyTx
    rw [hn]

/-- C10 witness: creating accounts in an empty store through login and
through prepareSignature yields the 100/50 starting balances. -/
theorem implicit_creation_starting_balances_witness :
    (loginFindOrCreate ⟨[], [], [], [], []⟩ "0xAbC" "u9").1
        = ⟨"u9", "0xabc", 100, 50⟩ ∧
    (prepareSignature ⟨[], [], [], [], []⟩ ⟨"0xdef", [], [], "0", 9⟩ none
        "u8" "bt_1" "bt_2" "s" "g").2.users
        = [⟨"u8", "0xdef", 100, 50⟩] := by
  have h := implicit_creation_starting_balances ⟨[], [], [], [], []⟩ "0xAbC" "u9"
    ⟨"0xdef", [], [], "0", 9⟩ none "u8" "bt_1" "bt_2" "s" "g"
  exact ⟨(h.1 (by decide)).1, by simpa using h.2 (by decide)⟩
